import Mathlib

/-!
Shallow embedding of the rback session-token core: salted hashing
(argon2 with the process-wide salt), JWT sign/verify (jsonwebtoken,
HS256, default validation with 60s leeway), the auth middleware,
and the login / refresh / logout / register handlers together with
the sqlite-backed token and user stores.
-/

namespace RBack

/-- Model of an argon2 `hash_encoded` output. The same plaintext and
salt always produce the same encoded string (the code passes one fixed
process salt on every call), and the hash is collision resistant, so
the encoded value is modelled as the pair it determines. -/
@[ext] structure HashedValue where
  plain : String
  salt : String
deriving DecidableEq, Repr

/-- Model of `argon2::hash_encoded(secret, salt, Config::default())`. -/
def hash_encoded (secret salt : String) : HashedValue := ⟨secret, salt⟩

/-- Model of `argon2::verify_encoded(hashed, candidate)`: recomputes with
the salt embedded in the encoded value and compares; true exactly when the
candidate equals the hashed plaintext. -/
def verify_encoded (hashed : HashedValue) (candidate : String) : Bool :=
  hashed.plain == candidate

/-- Field-for-field translation of `TokenClaims` in src/models/auth.rs. -/
structure TokenClaims where
  name : String
  email : String
  user_id : Int
  exp : Int
  token_type : String
  used : Bool
  jti : String
deriving DecidableEq, Repr

/-- Model of a signed JWT: `jsonwebtoken::encode` serializes the claims
and MACs them with the secret; an HMAC token is modelled by the pair
(claims, signing key) it determines. -/
structure Jwt where
  claims : TokenClaims
  key : String
deriving DecidableEq, Repr

/-- Model of `jsonwebtoken::encode(&Header::default(), &claims, key)`. -/
def encode (claims : TokenClaims) (key : String) : Jwt := ⟨claims, key⟩

/-- Error kinds of `jsonwebtoken::decode` relevant to this code. -/
inductive VerifyError where
  | Malformed
  | InvalidSignature
  | Expired
deriving DecidableEq, Repr

/-- Default leeway (seconds) of `jsonwebtoken::Validation::new`. -/
def leeway : Int := 60

/-- Model of `jsonwebtoken::decode::<TokenClaims>(token, key, Validation::new(HS256))`:
the signature is checked first (wrong key fails with `InvalidSignature`),
then `exp` is validated against current time minus the default leeway. -/
def decode (token : Jwt) (key : String) (now : Int) : Except VerifyError TokenClaims :=
  if token.key ≠ key then .error .InvalidSignature
  else if token.claims.exp < now - leeway then .error .Expired
  else .ok token.claims

/-- Rust `s.starts_with(p)` on header strings (visible-ASCII after
`HeaderValue::to_str`, so chars and bytes coincide). -/
def startsWithB (s p : String) : Bool :=
  p.data.isPrefixOf s.data

/-- Rust byte slicing `&s[i..]` on an ASCII string: `none` models the
panic when `i` is past the end of the string. -/
def sliceFrom (s : String) (i : Nat) : Option String :=
  if i ≤ s.data.length then some ⟨s.data.drop i⟩ else none

/-- Outcome of the auth middleware: a Rust panic, an `Err(StatusCode)`
rejection, or proceeding to `next.run` with the claims inserted into the
request extensions. -/
inductive MwResult where
  | panic
  | reject (status : Nat)
  | proceed (claims : TokenClaims)
deriving DecidableEq, Repr

/-- The verification tail of `auth_middleware` in src/middleware/auth.rs:
parse the extracted token string (failure is `Malformed`), then
`decode` it against SECRET_KEY_ACCESS; any failure maps to 401. -/
def verifyBearer (tok : String) (parse : String → Except VerifyError Jwt)
    (accessKey : String) (now : Int) : MwResult :=
  match parse tok with
  | .error _ => .reject 401
  | .ok jwt =>
    match decode jwt accessKey now with
    | .error _ => .reject 401
    | .ok claims => .proceed claims

/-- Translation of `auth_middleware` in src/middleware/auth.rs: a missing
or non-UTF-8 Authorization header is 401; a header not starting with the
six characters of the string Bearer is 401; otherwise the bytes from
index 7 on are decoded against the access key. -/
def auth_middleware (authHeader : Option String)
    (parse : String → Except VerifyError Jwt)
    (accessKey : String) (now : Int) : MwResult :=
  match authHeader with
  | none => .reject 401
  | some h =>
    if startsWithB h "Bearer" then
      match sliceFrom h 7 with
      | none => .panic
      | some tok => verifyBearer tok parse accessKey now
    else .reject 401

/-- Field-for-field translation of `DBToken` in src/models/auth.rs,
a row of the sqlite `tokens` table (the `token` column stores the
argon2 hash of the signed refresh-token string). -/
structure DBToken where
  id : Int
  token : HashedValue
  name : String
  email : String
  user_id : Int
  exp : Int
  used : Bool
deriving DecidableEq, Repr

/-- Translation of the SQL read in `refresh`:
SELECT * FROM tokens WHERE user_id = ? AND used = FALSE. -/
def selectUnused (store : List DBToken) (uid : Int) : List DBToken :=
  store.filter (fun t => decide (t.user_id = uid ∧ t.used = false))

/-- Translation of UPDATE tokens SET used = TRUE WHERE token = ? in
`update_tokens_in_database` (the bound value is the stored hash of the
matched row). -/
def markUsed (store : List DBToken) (h : HashedValue) : List DBToken :=
  store.map (fun t => if t.token = h then { t with used := true } else t)

/-- Next AUTOINCREMENT id for a tokens-table insert. -/
def nextTokenId (store : List DBToken) : Int :=
  (store.map (fun t => t.id)).foldr max 0 + 1

/-- Translation of `add_token` in src/database/connection.rs: INSERT a new
row from the claims and the hashed token string; the UNIQUE constraint on
the `token` column makes the insert fail when the hash is already stored. -/
def add_token (claims : TokenClaims) (tokenHash : HashedValue)
    (store : List DBToken) : Except Unit (List DBToken) :=
  if store.any (fun t => decide (t.token = tokenHash)) then .error ()
  else .ok (store ++
    [⟨nextTokenId store, tokenHash, claims.name, claims.email,
      claims.user_id, claims.exp, claims.used⟩])

/-- Translation of `ValidationDetail` in src/utils/mod.rs. -/
structure ValidationDetail where
  field : String
  messages : List String
deriving DecidableEq, Repr

/-- Translation of `ValidationError` in src/utils/mod.rs. -/
structure ValidationError where
  error : String
  details : List ValidationDetail
deriving DecidableEq, Repr

/-- The error `refresh` returns for an all-whitespace presented token. -/
def emptyRefreshTokenError : ValidationError :=
  ⟨"Invalid refresh token",
   [⟨"refresh_token", ["Refresh token cannot be empty"]⟩]⟩

/-- The error `find_matching_token` returns when no stored row verifies. -/
def invalidOrExpiredTokenError : ValidationError :=
  ⟨"Invalid refresh token",
   [⟨"refresh_token", ["The provided refresh token is invalid or expired"]⟩]⟩

/-- The error `update_tokens_in_database` returns when the INSERT of the
new refresh-token row fails. -/
def dbStoreTokenError : ValidationError :=
  ⟨"Database error", [⟨"database", ["Failed to store new refresh token"]⟩]⟩

/-- Translation of `find_matching_token` in src/handlers/auth.rs: scan the
candidate rows in order and return the first whose stored hash verifies
against the presented plaintext; otherwise the invalid-or-expired error. -/
def find_matching_token (tokens : List DBToken) (refresh_token : String) :
    Except ValidationError DBToken :=
  match tokens with
  | [] => .error invalidOrExpiredTokenError
  | t :: rest =>
    if verify_encoded t.token refresh_token then .ok t
    else find_matching_token rest refresh_token

/-- Rust `payload.refresh_token.trim().is_empty()`: the string is empty
after trimming exactly when every char is whitespace. -/
def rustTrimIsEmpty (s : String) : Bool :=
  s.data.all (fun c => c.isWhitespace)

/-- The per-request environment of a handler invocation: the two signing
secrets and the salt from process env, the current time, and the two
fresh `Uuid::new_v4` jti values drawn during the call. -/
structure TokenEnv where
  accessKey : String
  refreshKey : String
  salt : String
  now : Int
  jtiA : String
  jtiR : String
deriving DecidableEq, Repr

/-- Result type `NewTokens` of the refresh handler. -/
structure NewTokens where
  new_access_token : String
  new_refresh_token : String
deriving DecidableEq, Repr

/-- Translation of `generate_new_tokens` in src/handlers/auth.rs: build a
fresh Access claims (exp now+5min) signed with the access key and a fresh
Refresh claims (exp now+7days) signed with the refresh key. `sign` is the
string-level `jsonwebtoken::encode`, kept abstract because the rotation
path treats token strings opaquely. Returns
(access string, refresh string, refresh claims). -/
def generate_new_tokens (user_data : TokenClaims) (env : TokenEnv)
    (sign : TokenClaims → String → String) :
    String × String × TokenClaims :=
  let newAccessClaims : TokenClaims :=
    ⟨user_data.name, user_data.email, user_data.user_id,
     env.now + 5 * 60, "Access", false, env.jtiA⟩
  let newRefreshClaims : TokenClaims :=
    ⟨user_data.name, user_data.email, user_data.user_id,
     env.now + 7 * 24 * 60 * 60, "Refresh", false, env.jtiR⟩
  (sign newAccessClaims env.accessKey,
   sign newRefreshClaims env.refreshKey,
   newRefreshClaims)

/-- The write tail of `refresh`: `update_tokens_in_database` marks the
matched row used and inserts the hash of the newly signed refresh token.
When the insert fails the UPDATE has already been applied (no
transaction in the code), so the partially updated store is returned. -/
def writePhase (user_data : TokenClaims) (env : TokenEnv)
    (sign : TokenClaims → String → String) (matched : DBToken)
    (store : List DBToken) :
    Except ValidationError NewTokens × List DBToken :=
  let g := generate_new_tokens user_data env sign
  let store1 := markUsed store matched.token
  match add_token g.2.2 (hash_encoded g.2.1 env.salt) store1 with
  | .error _ => (.error dbStoreTokenError, store1)
  | .ok store2 => (.ok ⟨g.1, g.2.1⟩, store2)

/-- Translation of the `refresh` handler in src/handlers/auth.rs:
reject a blank token, read the caller's unused rows, verify-scan for the
match, then generate the new pair and write it back. -/
def refresh (user_data : TokenClaims) (payload : String) (env : TokenEnv)
    (sign : TokenClaims → String → String) (store : List DBToken) :
    Except ValidationError NewTokens × List DBToken :=
  if rustTrimIsEmpty payload then (.error emptyRefreshTokenError, store)
  else
    match find_matching_token (selectUnused store user_data.user_id) payload with
    | .error e => (.error e, store)
    | .ok matched => writePhase user_data env sign matched store

/-- Translation of the `logout` handler in src/handlers/auth.rs: hash the
presented plaintext with the process salt and
DELETE FROM tokens WHERE token = ?; deleting zero rows is still Ok. -/
def logout (payload : String) (salt : String) (store : List DBToken) :
    Except ValidationError Unit × List DBToken :=
  let hashed := hash_encoded payload salt
  (.ok (), store.filter (fun t => decide (¬ t.token = hashed)))

/-- Field-for-field translation of `UserDB` in src/models/user.rs (the
`password` column stores the argon2-encoded hash). -/
structure UserDB where
  id : Int
  name : String
  password : HashedValue
  email : String
deriving DecidableEq, Repr

/-- Outcome of the `login` handler: the token pair, or a status code with
the error payload. -/
inductive LoginResult where
  | ok (access_token refresh_token : String)
  | err (status : Nat) (e : ValidationError)
deriving DecidableEq, Repr

/-- The 409 error `login` returns when an Authorization header with the
Bearer prefix is already present. -/
def alreadyAuthorizedError : ValidationError :=
  ⟨"Authorization error", [⟨"Authorization", ["Already authorized"]⟩]⟩

/-- The 409 error `login` returns for a non-Bearer Authorization header. -/
def notBearerError : ValidationError :=
  ⟨"Authorization error", [⟨"Authorization", ["Not bearer"]⟩]⟩

/-- The 500 error `login` returns when fetch_one finds no user row:
sqlx `RowNotFound` rendered into the response payload. -/
def emailNotFoundError : ValidationError :=
  ⟨"Database query failed",
   [⟨"email", ["no rows returned by a query that expected to return at least one row"]⟩]⟩

/-- The 400 error `login` returns when the password does not verify. -/
def wrongPasswordError : ValidationError :=
  ⟨"Authentication failed", [⟨"credentials", ["Wrong password or email"]⟩]⟩

/-- The 500 error `login` returns when inserting the refresh row fails. -/
def loginAddTokenError : ValidationError :=
  ⟨"Database error", [⟨"database", ["Failed to add token"]⟩]⟩

/-- Translation of the `login` handler in src/handlers/auth.rs: reject if
an Authorization header is present, fetch_one the user by email (sqlx
RowNotFound becomes a 500), verify the password hash, then sign the
Access (exp now+5min) and Refresh (exp now+7days) tokens and store the
salted hash of the refresh token. -/
def login (users : List UserDB) (authHeader : Option String)
    (email password : String) (env : TokenEnv)
    (sign : TokenClaims → String → String) (store : List DBToken) :
    LoginResult × List DBToken :=
  match authHeader with
  | some h =>
    if startsWithB h "Bearer " then (.err 409 alreadyAuthorizedError, store)
    else (.err 409 notBearerError, store)
  | none =>
    match users.find? (fun u => u.email == email) with
    | none => (.err 500 emailNotFoundError, store)
    | some user =>
      if verify_encoded user.password password then
        let claims : TokenClaims :=
          ⟨user.name, user.email, user.id, env.now + 5 * 60, "Access", false, env.jtiA⟩
        let claims_refresh : TokenClaims :=
          ⟨user.name, user.email, user.id, env.now + 7 * 24 * 60 * 60, "Refresh", false, env.jtiR⟩
        let access_token := sign claims env.accessKey
        let refresh_token := sign claims_refresh env.refreshKey
        match add_token claims_refresh (hash_encoded refresh_token env.salt) store with
        | .error _ => (.err 500 loginAddTokenError, store)
        | .ok store2 => (.ok access_token refresh_token, store2)
      else (.err 400 wrongPasswordError, store)

/-- Field-for-field translation of `RegisterData` in src/models/user.rs. -/
structure RegisterData where
  name : String
  password : String
  email : String
deriving DecidableEq, Repr

/-- Outcome of the `register` handler. -/
inductive RegisterResult where
  | ok (user_id : Int)
  | err (e : ValidationError)
deriving DecidableEq, Repr

/-- The error `register` returns when a user with the same name or email
already exists. -/
def userExistsError : ValidationError :=
  ⟨"Validation failed",
   [⟨"user", ["User with this name or email already exists"]⟩]⟩

/-- Next AUTOINCREMENT id for a users-table insert. -/
def nextUserId (users : List UserDB) : Int :=
  (users.map (fun u => u.id)).foldr max 0 + 1

/-- The sqlite `users` schema in src/database/connection.rs puts a UNIQUE
constraint on `email` only (name is merely NOT NULL). -/
def usersSchemaOk (users : List UserDB) : Prop :=
  users.Pairwise (fun a b => a.email ≠ b.email)

/-- Translation of the `register` handler in src/handlers/auth.rs:
`payload.validate()` runs first (the validator crate's checks, passed in
abstractly), then SELECT * FROM users WHERE name = ?1 OR email = ?2
rejects any collision, then the password is hashed and the user row
inserted via `add_user`. -/
def register (validate : RegisterData → Option ValidationError)
    (users : List UserDB) (payload : RegisterData) (salt : String) :
    RegisterResult × List UserDB :=
  match validate payload with
  | some e => (.err e, users)
  | none =>
    if users.any (fun u => decide (u.name = payload.name ∨ u.email = payload.email)) then
      (.err userExistsError, users)
    else
      let hashed := hash_encoded payload.password salt
      let uid := nextUserId users
      (.ok uid, users ++ [⟨uid, payload.name, hashed, payload.email⟩])

instance {ε α : Type} [DecidableEq ε] [DecidableEq α] : DecidableEq (Except ε α) :=
  fun a b =>
    match a, b with
    | .error e1, .error e2 =>
      if h : e1 = e2 then .isTrue (by rw [h]) else .isFalse (fun hc => h (Except.error.inj hc))
    | .error _, .ok _ => .isFalse (fun hc => Except.noConfusion hc)
    | .ok _, .error _ => .isFalse (fun hc => Except.noConfusion hc)
    | .ok x, .ok y =>
      if h : x = y then .isTrue (by rw [h]) else .isFalse (fun hc => h (Except.ok.inj hc))

/-- Program counter of one in-flight `refresh` call, used to interleave
two concurrent calls: before the SELECT, after the verify-scan found a
match (the await point between the read and the UPDATE), or finished. -/
inductive RSession where
  | start (payload : String)
  | matched (payload : String) (m : DBToken)
  | done (r : Except ValidationError NewTokens)
deriving DecidableEq, Repr

/-- The read phase of `refresh` (everything before
`update_tokens_in_database`): the blank check, the SELECT of unused rows
and the verify-scan. No store mutation. -/
def readPhase (user_data : TokenClaims) (payload : String)
    (store : List DBToken) : RSession :=
  if rustTrimIsEmpty payload then .done (.error emptyRefreshTokenError)
  else
    match find_matching_token (selectUnused store user_data.user_id) payload with
    | .error e => .done (.error e)
    | .ok m => .matched payload m

/-- One scheduler step of an in-flight refresh call: run its next phase
against the current store. -/
def stepOne (user_data : TokenClaims) (env : TokenEnv)
    (sign : TokenClaims → String → String) :
    RSession → List DBToken → RSession × List DBToken
  | .start p, store => (readPhase user_data p store, store)
  | .matched _ m, store =>
    let r := writePhase user_data env sign m store
    (.done r.1, r.2)
  | .done r, store => (.done r, store)

/-- Two concurrent refresh calls over one shared token store. -/
structure TwoSessions where
  s1 : RSession
  s2 : RSession
  store : List DBToken
deriving DecidableEq, Repr

/-- Advance the first (true) or second (false) session by one phase. -/
def stepSched (user_data : TokenClaims) (env1 env2 : TokenEnv)
    (sign : TokenClaims → String → String) (first : Bool)
    (st : TwoSessions) : TwoSessions :=
  if first then
    let r := stepOne user_data env1 sign st.s1 st.store
    ⟨r.1, st.s2, r.2⟩
  else
    let r := stepOne user_data env2 sign st.s2 st.store
    ⟨st.s1, r.1, r.2⟩

/-- Run an interleaving schedule over two concurrent refresh calls. -/
def runSchedule (user_data : TokenClaims) (env1 env2 : TokenEnv)
    (sign : TokenClaims → String → String) :
    List Bool → TwoSessions → TwoSessions
  | [], st => st
  | b :: rest, st =>
    runSchedule user_data env1 env2 sign rest
      (stepSched user_data env1 env2 sign b st)

/-- True when a session finished with a new token pair. -/
def RSession.isSuccess : RSession → Bool
  | .done (.ok _) => true
  | _ => false

/-- A concrete string-level signing function for witnesses: injective on
the jti, like a real JWT encoding of claims with a fresh jti. -/
def signModel (c : TokenClaims) (k : String) : String :=
  c.jti ++ ":" ++ k

/-- Claims recovered from the access token of a demo session. -/
def wUser : TokenClaims := ⟨"alice", "a@x.com", 1, 9999, "Access", false, "j0"⟩

/-- Demo environment: secrets, salt, time zero, fresh jti values. -/
def wEnv : TokenEnv := ⟨"ak", "rk", "salt", 0, "ja", "jr"⟩

/-- Demo token store: one unused stored refresh token for user 1, the
salted hash of the plaintext token string tok1. -/
def wStore : List DBToken :=
  [⟨1, ⟨"tok1", "salt"⟩, "alice", "a@x.com", 1, 8888, false⟩]

/-- The token store after a successful refresh of tok1 over `wStore`:
the old row is marked used and the hash of the new refresh token is
inserted. -/
def wStoreAfter : List DBToken :=
  [⟨1, ⟨"tok1", "salt"⟩, "alice", "a@x.com", 1, 8888, true⟩,
   ⟨2, ⟨"jr:rk", "salt"⟩, "alice", "a@x.com", 1, 604800, false⟩]

/-- The token pair returned by that successful refresh. -/
def wNT : NewTokens := ⟨"ja:ak", "jr:rk"⟩

/-- Environment of the first concurrent refresh call. -/
def cEnv1 : TokenEnv := ⟨"ak", "rk", "salt", 0, "a1", "r1"⟩

/-- Environment of the second concurrent refresh call. -/
def cEnv2 : TokenEnv := ⟨"ak", "rk", "salt", 0, "a2", "r2"⟩

/-- Two concurrent refresh calls presenting the same still-valid token. -/
def raceStart : TwoSessions := ⟨.start "tok1", .start "tok1", wStore⟩

/-- Interleaving in which both calls run their read phase before either
runs its write phase. -/
def raceRun : TwoSessions :=
  runSchedule wUser cEnv1 cEnv2 signModel [true, false, true, false] raceStart

/-- Claims carried by a demo access token. -/
def cAbc : TokenClaims := ⟨"bob", "b@x.com", 2, 1000, "Access", false, "jx"⟩

/-- A parse function recognising exactly the token string abc as a valid
access-key-signed token. -/
def parseAbc : String → Except VerifyError Jwt :=
  fun s => if s = "abc" then .ok (encode cAbc "ak") else .error .Malformed

/-- A parse function rejecting every token string as malformed. -/
def parseNone : String → Except VerifyError Jwt :=
  fun _ => .error .Malformed

/-- One registered demo user with a known password hash. -/
def demoUsers : List UserDB :=
  [⟨1, "alice", ⟨"Str0ng!Pass", "salt"⟩, "a@x.com"⟩]

/-- Demo refresh-type claims for key-separation witnesses. -/
def demoClaims : TokenClaims := ⟨"dana", "d@x.com", 4, 1000, "Refresh", false, "jd"⟩

/-- Claims whose exp is more than the leeway in the past. -/
def cPast : TokenClaims := ⟨"bob", "b@x.com", 2, -100, "Access", false, "jp"⟩

/-- Claims whose exp is in the past but within the 60s leeway of now=30. -/
def cPastNear : TokenClaims := ⟨"bob", "b@x.com", 2, 0, "Access", false, "jn"⟩

/-- Claims far expired, for the expiry witness. -/
def cW : TokenClaims := ⟨"carol", "c@x.com", 3, -1000, "Access", false, "jw"⟩

/-- Users table for the registration witness: emails are unique as the
schema demands, names carry no constraint. -/
def regUsers : List UserDB := [⟨1, "alice", ⟨"pw", "salt"⟩, "a@x.com"⟩]

/-- Registration payload colliding with an existing user on name only. -/
def regPayload : RegisterData := ⟨"alice", "Str0ng!Pass", "b@x.com"⟩

/-- A payload validator that accepts (models `payload.validate()` passing). -/
def validateOk : RegisterData → Option ValidationError := fun _ => none

theorem verify_encoded_eq_true {h : HashedValue} {c : String} :
    verify_encoded h c = true ↔ h.plain = c := by
  simp [verify_encoded]

theorem hashedValue_eq {a b : HashedValue}
    (h1 : a.plain = b.plain) (h2 : a.salt = b.salt) : a = b := by
  cases a
  cases b
  simp_all

theorem mem_selectUnused {r : DBToken} {s : List DBToken} {uid : Int} :
    r ∈ selectUnused s uid ↔ r ∈ s ∧ r.user_id = uid ∧ r.used = false := by
  simp [selectUnused, List.mem_filter]

theorem mem_markUsed {r : DBToken} {s : List DBToken} {h : HashedValue} :
    r ∈ markUsed s h ↔
      ∃ r0 ∈ s, (if r0.token = h then { r0 with used := true } else r0) = r := by
  simp [markUsed, List.mem_map]

theorem markUsed_keeps_used {r : DBToken} {s : List DBToken} {h : HashedValue}
    (hr : r ∈ s) (hu : r.used = true) : r ∈ markUsed s h := by
  rw [mem_markUsed]
  refine ⟨r, hr, ?_⟩
  by_cases ht : r.token = h
  · rw [if_pos ht]
    cases r
    simp_all
  · rw [if_neg ht]

theorem find_matching_token_ok_mem {ts : List DBToken} {p : String} {m : DBToken}
    (h : find_matching_token ts p = .ok m) :
    m ∈ ts ∧ verify_encoded m.token p = true := by
  induction ts with
  | nil => simp [find_matching_token] at h
  | cons t rest ih =>
    by_cases hv : verify_encoded t.token p = true
    · have he : find_matching_token (t :: rest) p = .ok t := by
        simp [find_matching_token, hv]
      rw [he] at h
      obtain rfl := Except.ok.inj h
      exact ⟨List.mem_cons_self t rest, hv⟩
    · have he : find_matching_token (t :: rest) p = find_matching_token rest p := by
        simp [find_matching_token, hv]
      rw [he] at h
      obtain ⟨h1, h2⟩ := ih h
      exact ⟨List.mem_cons_of_mem t h1, h2⟩

theorem find_matching_token_eq_error {ts : List DBToken} {p : String}
    (h : ∀ r ∈ ts, verify_encoded r.token p = false) :
    find_matching_token ts p = .error invalidOrExpiredTokenError := by
  induction ts with
  | nil => rfl
  | cons t rest ih =>
    have ht : verify_encoded t.token p = false := h t (List.mem_cons_self t rest)
    have he : find_matching_token (t :: rest) p = find_matching_token rest p := by
      simp [find_matching_token, ht]
    rw [he]
    exact ih (fun r hr => h r (List.mem_cons_of_mem t hr))

theorem bearer_append_data (t : String) :
    ("Bearer " ++ t).data = 'B' :: 'e' :: 'a' :: 'r' :: 'e' :: 'r' :: ' ' :: t.data := rfl

theorem startsWithB_bearer (t : String) :
    startsWithB ("Bearer " ++ t) "Bearer" = true := by
  rw [startsWithB, bearer_append_data]
  rfl

theorem sliceFrom_bearer (t : String) : sliceFrom ("Bearer " ++ t) 7 = some t := by
  rw [sliceFrom, bearer_append_data]
  simp only [List.length_cons]
  rw [if_pos (by omega)]
  rfl

theorem auth_middleware_bearer_append (t : String)
    (parse : String → Except VerifyError Jwt) (k : String) (now : Int) :
    auth_middleware (some ("Bearer " ++ t)) parse k now = verifyBearer t parse k now := by
  simp [auth_middleware, startsWithB_bearer, sliceFrom_bearer]

theorem refresh_ok_store {user : TokenClaims} {t1 : String} {env : TokenEnv}
    {sign : TokenClaims → String → String} {store store2 : List DBToken}
    {nt : NewTokens}
    (h1 : refresh user t1 env sign store = (.ok nt, store2)) :
    rustTrimIsEmpty t1 = false ∧
    ∃ m row,
      find_matching_token (selectUnused store user.user_id) t1 = .ok m ∧
      store2 = markUsed store m.token ++ [row] ∧
      row.token = hash_encoded (generate_new_tokens user env sign).2.1 env.salt := by
  unfold refresh at h1
  split at h1
  · exact absurd (congrArg Prod.fst h1) (by simp)
  · rename_i hb
    refine ⟨Bool.eq_false_iff.mpr hb, ?_⟩
    split at h1
    · exact absurd (congrArg Prod.fst h1) (by simp)
    · rename_i m hm
      simp only [writePhase] at h1
      split at h1
      · exact absurd (congrArg Prod.fst h1) (by simp)
      · rename_i s2 ha
        obtain ⟨-, h2⟩ := Prod.mk.injEq .. ▸ h1
        unfold add_token at ha
        split at ha
        · exact absurd ha (by simp)
        · obtain rfl := Except.ok.inj ha
          exact ⟨m, _, hm, h2.symm, rfl⟩

/-- C8: a refresh request whose presented token string is empty after
trimming whitespace fails with the invalid-input error before any
storage read, and the token store is returned unchanged. -/
theorem refresh_blank_input (user : TokenClaims) (p : String) (env : TokenEnv)
    (sign : TokenClaims → String → String) (store : List DBToken)
    (h : rustTrimIsEmpty p = true) :
    refresh user p env sign store = (.error emptyRefreshTokenError, store) := by
  unfold refresh
  rw [if_pos h]

/-- Witness for C8 at the one-space token over the demo store. -/
theorem refresh_blank_input_witness :
    refresh wUser " " wEnv signModel wStore = (.error emptyRefreshTokenError, wStore) :=
  refresh_blank_input wUser " " wEnv signModel wStore (by decide)

/-- C3 (amended): the middleware rejects with 401, independently of the
parse function, the key and the clock, any request whose Authorization
header is absent or does not start with the six characters of the string
Bearer (no trailing space required); when the prefix check passes, the
substring from byte index 7 is what reaches token verification. -/
theorem auth_header_gate (parse : String → Except VerifyError Jwt)
    (k : String) (now : Int) :
    auth_middleware none parse k now = .reject 401
    ∧ (∀ h : String, startsWithB h "Bearer" = false →
        auth_middleware (some h) parse k now = .reject 401)
    ∧ (∀ h t : String, startsWithB h "Bearer" = true → sliceFrom h 7 = some t →
        auth_middleware (some h) parse k now = verifyBearer t parse k now) := by
  refine ⟨rfl, ?_, ?_⟩
  · intro h hf
    simp [auth_middleware, hf]
  · intro h t ht hs
    simp [auth_middleware, ht, hs]

/-- Witness for C3 (amended): a Basic-authorization header is rejected
with 401 whatever the parse function would say. -/
theorem auth_header_gate_witness :
    auth_middleware (some "Basic abc") parseNone "k" 0 = .reject 401 :=
  (auth_header_gate parseNone "k" 0).2.1 "Basic abc" (by decide)

/-- Counterexample to C3 as stated: the header BearerXabc does not carry
the literal prefix Bearer-space, yet the middleware does not reject it;
it strips seven bytes and verification runs on abc, which here decodes
to a valid access token, so the request proceeds. -/
theorem auth_header_gate_cex :
    startsWithB "BearerXabc" "Bearer " = false
    ∧ auth_middleware (some "BearerXabc") parseAbc "ak" 0 = .proceed cAbc := by
  decide

/-- C9: a header of exactly the six characters of Bearer passes the
prefix check, and the byte slice from index 7 in the middleware then
panics (out-of-bounds slice of a six-byte string), for every parse
function, key and clock. -/
theorem bearer_exact_panics (parse : String → Except VerifyError Jwt)
    (k : String) (now : Int) :
    startsWithB "Bearer" "Bearer" = true
    ∧ auth_middleware (some "Bearer") parse k now = .panic := by
  have h1 : startsWithB "Bearer" "Bearer" = true := by decide
  have h2 : sliceFrom "Bearer" 7 = none := by decide
  exact ⟨h1, by simp [auth_middleware, h1, h2]⟩

/-- C4: with distinct Access and Refresh secrets, a token signed with
either key fails verification against the other with InvalidSignature,
for all claim contents; in particular a refresh-key-signed token
presented as a bearer token is always rejected 401 by the middleware,
which verifies against the access key only. -/
theorem key_separation (c : TokenClaims) (ak rk : String) (now : Int)
    (hk : ak ≠ rk) :
    decode (encode c ak) rk now = .error .InvalidSignature
    ∧ decode (encode c rk) ak now = .error .InvalidSignature
    ∧ ∀ (tokStr : String) (parse : String → Except VerifyError Jwt),
        parse tokStr = .ok (encode c rk) →
        auth_middleware (some ("Bearer " ++ tokStr)) parse ak now = .reject 401 := by
  have hd : decode (encode c rk) ak now = .error .InvalidSignature := by
    simp [decode, encode, Ne.symm hk]
  refine ⟨by simp [decode, encode, hk], hd, ?_⟩
  intro tokStr parse hp
  rw [auth_middleware_bearer_append]
  simp [verifyBearer, hp, hd]

/-- Witness for C4 at concrete distinct keys and refresh claims. -/
theorem key_separation_witness :
    decode (encode demoClaims "ak") "rk" 0 = .error .InvalidSignature :=
  (key_separation demoClaims "ak" "rk" 0 (by decide)).1

/-- C7 (amended): a token whose exp is more than the 60-second default
leeway before the current time fails verification with Expired when
checked against its own signing key, and with InvalidSignature when
checked against a different key; in either case the middleware rejects
the request with 401. -/
theorem expired_token_rejected (c : TokenClaims) (k kv : String) (now : Int)
    (hexp : c.exp < now - leeway) :
    decode (encode c k) kv now
      = .error (if kv = k then .Expired else .InvalidSignature)
    ∧ ∀ (tokStr : String) (parse : String → Except VerifyError Jwt),
        parse tokStr = .ok (encode c k) →
        auth_middleware (some ("Bearer " ++ tokStr)) parse kv now = .reject 401 := by
  have hd : decode (encode c k) kv now
      = .error (if kv = k then .Expired else .InvalidSignature) := by
    by_cases hkv : kv = k
    · subst hkv
      simp [decode, encode, hexp]
    · have : k ≠ kv := fun h => hkv h.symm
      simp [decode, encode, this, hkv]
  refine ⟨hd, ?_⟩
  intro tokStr parse hp
  rw [auth_middleware_bearer_append]
  simp [verifyBearer, hp, hd]

/-- Witness for C7 (amended) at a far-expired token and its own key. -/
theorem expired_token_rejected_witness :
    decode (encode cW "a") "a" 0
      = .error (if ("a" : String) = "a" then .Expired else .InvalidSignature) :=
  (expired_token_rejected cW "a" "a" 0 (by decide)).1

/-- Counterexample to C7 as stated: a token with exp in the past but a
wrong signature fails with InvalidSignature, not Expired (the signature
is checked first); and a token with exp in the past by less than the
60-second leeway verifies successfully against its own key. -/
theorem expired_token_cex :
    cPast.exp < 0
    ∧ decode (encode cPast "k1") "k2" 0 = .error .InvalidSignature
    ∧ (VerifyError.InvalidSignature ≠ VerifyError.Expired)
    ∧ cPastNear.exp < 30
    ∧ decode (encode cPastNear "k1") "k1" 30 = .ok cPastNear := by
  decide

/-- C5: the code distinguishes a wrong password on an existing email
(400 Authentication failed) from a non-existent email (500 Database
query failed) — the two observable failures differ and the unknown-email
case is a server error, contradicting the claim. -/
theorem login_leaks_email_existence :
    (login demoUsers none "a@x.com" "wrongpw" wEnv signModel []).1
      = .err 400 wrongPasswordError
    ∧ (login demoUsers none "ghost@x.com" "wrongpw" wEnv signModel []).1
      = .err 500 emailNotFoundError
    ∧ wrongPasswordError ≠ emailNotFoundError := by
  decide

/-- C2: the read that finds the stored row unused and the UPDATE that
marks it used are separate steps with an await point between them, so
the interleaving read1-read2-write1-write2 of two concurrent refresh
calls presenting the same token yields two successes — while the
sequential composition of the same two calls yields one success and one
invalid-or-expired failure. -/
theorem refresh_race_two_successes :
    raceRun.s1.isSuccess = true
    ∧ raceRun.s2.isSuccess = true
    ∧ (refresh wUser "tok1" cEnv2 signModel
        (refresh wUser "tok1" cEnv1 signModel wStore).2).1
      = .error invalidOrExpiredTokenError := by
  decide

/-- C10: when the payload passes field validation and some existing user
matches on name or on email, registration is rejected with the
user-already-exists validation error and the users table is unchanged;
this holds for any store satisfying the schema, whose only uniqueness
constraint is on email. -/
theorem register_rejects_collision
    (validate : RegisterData → Option ValidationError) (users : List UserDB)
    (p : RegisterData) (salt : String)
    (_hschema : usersSchemaOk users)
    (hv : validate p = none)
    (hex : ∃ u ∈ users, u.name = p.name ∨ u.email = p.email) :
    register validate users p salt = (.err userExistsError, users) := by
  unfold register
  rw [hv]
  have ha : users.any (fun u => decide (u.name = p.name ∨ u.email = p.email)) = true := by
    rw [List.any_eq_true]
    obtain ⟨u, hu, hor⟩ := hex
    exact ⟨u, hu, by simpa using hor⟩
  rw [if_pos ha]

/-- Witness for C10: a name-only collision (emails distinct, store
satisfying the email-unique schema) is rejected by the handler. -/
theorem register_rejects_collision_witness :
    register validateOk regUsers regPayload "salt" = (.err userExistsError, regUsers) :=
  register_rejects_collision validateOk regUsers regPayload "salt"
    (by simp [usersSchemaOk, regUsers]) rfl (by decide)

/-- C1: single-use refresh tokens. If a refresh presenting T1 succeeds
over a store whose rows all carry the process salt, and the freshly
signed replacement differs from T1, then any subsequent refresh
presenting T1 — by any caller, under any environment — fails with the
invalid-or-expired error; moreover a used row never satisfies the
rotation lookup (which loads only unused rows) and used rows survive the
refresh unchanged. -/
theorem refresh_single_use
    (user user2 : TokenClaims) (t1 : String) (env env2 : TokenEnv)
    (sign sign2 : TokenClaims → String → String)
    (store store2 : List DBToken) (nt : NewTokens)
    (hsalt : ∀ r ∈ store, r.token.salt = env.salt)
    (hfresh : (generate_new_tokens user env sign).2.1 ≠ t1)
    (h1 : refresh user t1 env sign store = (.ok nt, store2)) :
    (refresh user2 t1 env2 sign2 store2).1 = .error invalidOrExpiredTokenError
    ∧ (∀ (s : List DBToken) (uid : Int) (r : DBToken),
        r.used = true → r ∉ selectUnused s uid)
    ∧ (∀ r ∈ store, r.used = true → r ∈ store2) := by
  obtain ⟨hb, m, row, hm, hst, hrow⟩ := refresh_ok_store h1
  obtain ⟨hmem, hver⟩ := find_matching_token_ok_mem hm
  have hmstore : m ∈ store := (mem_selectUnused.mp hmem).1
  have hmplain : m.token.plain = t1 := verify_encoded_eq_true.mp hver
  have hmsalt : m.token.salt = env.salt := hsalt m hmstore
  have hall : ∀ r ∈ selectUnused store2 user2.user_id,
      verify_encoded r.token t1 = false := by
    intro r hr
    obtain ⟨hrs, -, hru⟩ := mem_selectUnused.mp hr
    rw [hst] at hrs
    rcases List.mem_append.mp hrs with hrA | hrB
    · obtain ⟨r0, hr0, hreq⟩ := mem_markUsed.mp hrA
      by_cases ht : r0.token = m.token
      · rw [if_pos ht] at hreq
        rw [← hreq] at hru
        simp at hru
      · rw [if_neg ht] at hreq
        subst hreq
        by_contra hc
        have hv : verify_encoded r0.token t1 = true := by
          simpa using hc
        refine ht (hashedValue_eq ?_ ?_)
        · rw [verify_encoded_eq_true.mp hv, hmplain]
        · rw [hsalt r0 hr0, hmsalt]
    · have hrow2 : r = row := by simpa using hrB
      subst hrow2
      rw [hrow]
      simpa [verify_encoded, hash_encoded] using hfresh
  refine ⟨?_, ?_, ?_⟩
  · have h2 : refresh user2 t1 env2 sign2 store2
        = (.error invalidOrExpiredTokenError, store2) := by
      unfold refresh
      rw [if_neg (by simp [hb]), find_matching_token_eq_error hall]
    rw [h2]
  · intro s uid r hru hr
    obtain ⟨-, -, hfalse⟩ := mem_selectUnused.mp hr
    rw [hru] at hfalse
    exact Bool.noConfusion hfalse
  · intro r hr hru
    rw [hst]
    exact List.mem_append.mpr (Or.inl (markUsed_keeps_used hr hru))

/-- Witness for C1: rotating tok1 over the demo store succeeds and
produces `wStoreAfter`; presenting tok1 again then fails with the
invalid-or-expired error. -/
theorem refresh_single_use_witness :
    (refresh wUser "tok1" wEnv signModel wStoreAfter).1
      = .error invalidOrExpiredTokenError :=
  (refresh_single_use wUser wUser "tok1" wEnv wEnv signModel signModel
    wStore wStoreAfter wNT (by decide) (by decide) (by decide)).1

/-- C6: logout hashes the presented plaintext with the process salt and
deletes exactly the rows whose stored hash matches; it returns Ok even
when zero rows match; and over a store whose rows all carry the process
salt, a subsequent refresh presenting the logged-out token fails with
the invalid-or-expired error. -/
theorem logout_revokes (t1 salt : String) (store : List DBToken)
    (user : TokenClaims) (env : TokenEnv)
    (sign : TokenClaims → String → String)
    (hsalt : ∀ r ∈ store, r.token.salt = salt)
    (hb : rustTrimIsEmpty t1 = false) :
    (∀ (p s : String) (st : List DBToken), (logout p s st).1 = .ok ())
    ∧ (∀ r ∈ (logout t1 salt store).2, r ∈ store ∧ r.token ≠ hash_encoded t1 salt)
    ∧ (refresh user t1 env sign (logout t1 salt store).2).1
        = .error invalidOrExpiredTokenError := by
  have hmem : ∀ r ∈ (logout t1 salt store).2,
      r ∈ store ∧ r.token ≠ hash_encoded t1 salt := by
    intro r hr
    have := List.mem_filter.mp hr
    simpa using this
  refine ⟨fun _ _ _ => rfl, hmem, ?_⟩
  have hall : ∀ r ∈ selectUnused (logout t1 salt store).2 user.user_id,
      verify_encoded r.token t1 = false := by
    intro r hr
    obtain ⟨hrs, -, -⟩ := mem_selectUnused.mp hr
    obtain ⟨hrstore, hrne⟩ := hmem r hrs
    by_contra hc
    have hv : verify_encoded r.token t1 = true := by simpa using hc
    refine hrne (hashedValue_eq ?_ ?_)
    · exact verify_encoded_eq_true.mp hv
    · exact hsalt r hrstore
  have h2 : refresh user t1 env sign (logout t1 salt store).2
      = (.error invalidOrExpiredTokenError, (logout t1 salt store).2) := by
    unfold refresh
    rw [if_neg (by simp [hb]), find_matching_token_eq_error hall]
  rw [h2]

/-- Witness for C6: logging out tok1 from the demo store empties it and
a refresh presenting tok1 then fails with the invalid-or-expired error. -/
theorem logout_revokes_witness :
    (refresh wUser "tok1" wEnv signModel (logout "tok1" "salt" wStore).2).1
      = .error invalidOrExpiredTokenError :=
  (logout_revokes "tok1" "salt" wStore wUser wEnv signModel
    (by decide) (by decide)).2.2

end RBack
